import Mathlib

/-!
Verification of `dlogcsv.py` from matib12/dlog-utils-portable.

The program converts a parsed instrument data log (header metadata plus a
sequence of multi-channel samples) into CSV rows.  We embed the data model
and the three operations the program performs:

* `format_header_info` (source lines 11-36): the metadata presenter;
* the timestamped row producer (source lines 74-75);
* the optional log-header / column-header rows and `write_csv`
  (source lines 48-53 and 77-86).

Numeric sample values and the voltage scale are modelled as exact rationals
(`ℚ`).  The header fields `sample_rate` and `delay` are fed to Python's
`decimal.Decimal`, so we model them as exact decimal numbers `Dec`
(coefficient × 10^exponent), which represents every int and every binary
float value exactly; `Dec.toRat` recovers the numeric value used by the
row producer's division.
-/

/-- An exact decimal number `c * 10 ^ e`, mirroring the value/representation
of Python's `decimal.Decimal` (sign folded into the integer coefficient). -/
structure Dec where
  c : ℤ
  e : ℤ
  deriving Repr, DecidableEq

/-- The numeric value of a `Dec` as a rational. -/
def Dec.toRat (d : Dec) : ℚ :=
  (d.c : ℚ) * (10 : ℚ) ^ d.e

/-- Strip trailing zero digits from the coefficient, moving them into the
exponent, with explicit fuel (the digit count of the coefficient bounds the
number of strippable zeros).  Mirrors the coefficient reduction performed by
`decimal.Decimal.normalize`. -/
def stripZeros : ℕ → ℤ → ℤ → ℤ × ℤ
  | 0, c, e => (c, e)
  | n + 1, c, e =>
    if c % 10 = 0 ∧ c ≠ 0 then stripZeros n (c / 10) (e + 1) else (c, e)

/-- Python's `decimal.Decimal.normalize`: reduce to the simplest value-equal
representation; a zero value normalizes to exponent 0. -/
def Dec.normalize (d : Dec) : Dec :=
  if d.c = 0 then ⟨0, 0⟩
  else
    let p := stripZeros d.c.natAbs d.c d.e
    ⟨p.1, p.2⟩

/-- Render an exponent with an explicit sign, as Python's `"%+d"`. -/
def signedExp (x : ℤ) : String :=
  if x < 0 then toString x else "+" ++ toString x

/-- Python's `decimal.Decimal.to_eng_string`: positional display when
`exp ≤ 0` and the adjusted exponent is above -6, otherwise engineering
notation with an `E` exponent that is a multiple of 3.  Follows the
reference algorithm of CPython's `_pydecimal.Decimal.__str__` with
`eng=True`. -/
def Dec.toEngString (d : Dec) : String :=
  let sign := if d.c < 0 then "-" else ""
  let digits := (toString d.c.natAbs).data
  let len : ℤ := digits.length
  let leftdigits : ℤ := d.e + len
  let dotplace : ℤ :=
    if d.e ≤ 0 ∧ -6 < leftdigits then leftdigits
    else if d.c = 0 then (leftdigits + 1) % 3 - 1
    else (leftdigits - 1) % 3 + 1
  let intpart : List Char :=
    if dotplace ≤ 0 then ['0']
    else if len ≤ dotplace then digits ++ List.replicate (dotplace - len).toNat '0'
    else digits.take dotplace.toNat
  let fracpart : List Char :=
    if dotplace ≤ 0 then '.' :: (List.replicate (-dotplace).toNat '0' ++ digits)
    else if len ≤ dotplace then []
    else '.' :: digits.drop dotplace.toNat
  let expPart : String :=
    if leftdigits = dotplace then "" else "E" ++ signedExp (leftdigits - dotplace)
  sign ++ String.mk intpart ++ String.mk fracpart ++ expPart

/-- An enumerated tag (e.g. `header.dlog_format`, `header.stop_reason`);
only its display `name` is used by the program. -/
structure EnumTag where
  name : String
  deriving Repr, DecidableEq

/-- The Dlog header fields read by `dlogcsv.py`.  Supplied read-only by the
external parser (`dlog.py`, out of scope); field names follow the source. -/
structure Header where
  dlog_format : EnumTag
  stop_reason : EnumTag
  num_samples : ℕ
  voltage_scale : ℚ
  sample_rate : Dec
  delay : Dec
  num_channels : ℕ
  channel_map : List ℕ
  deriving Repr, DecidableEq

/-- One sample: an ordered sequence of numeric channel values. -/
structure Sample where
  channel : List ℚ
  deriving Repr, DecidableEq

/-- Render a rational as a plain number (stand-in for Python's `str` on the
numeric fallback; no claim constrains its exact digits). -/
def showRat (q : ℚ) : String :=
  if q.den = 1 then toString q.num
  else toString q.num ++ "/" ++ toString q.den

/-- Source lines 19-22: the voltage-scale presentation.  The local variable
`voltage_scale` holds either the looked-up unit string (for the table
`{1000: "mV", 1: "V"}`) or the numeric reciprocal `1/header.voltage_scale`. -/
def voltage_display (vs : ℚ) : String ⊕ ℚ :=
  if vs = 1000 then Sum.inl "mV"
  else if vs = 1 then Sum.inl "V"
  else Sum.inr (1 / vs)

/-- Interpolation of the `voltage_scale` variable into the f-string on
source line 30: a unit string prints verbatim, a number prints as a plain
number. -/
def showVoltage : String ⊕ ℚ → String
  | Sum.inl s => s
  | Sum.inr q => showRat q

/-- Python's `str` on a list of channel ids, e.g. `[0, 1]`. -/
def showChannelList (l : List ℕ) : String :=
  "[" ++ String.intercalate ", " (l.map toString) ++ "]"

/-- Source lines 11-36, `format_header_info`: the metadata presenter.
Returns the eight formatted strings in source order. -/
def format_header_info (h : Header) : List String :=
  [ "log format: " ++ h.dlog_format.name,
    "stop reason: " ++ h.stop_reason.name,
    "number of samples: " ++ toString h.num_samples,
    "voltage units: " ++ showVoltage (voltage_display h.voltage_scale),
    "sample rate: " ++ (Dec.toEngString (Dec.normalize h.sample_rate)) ++ " Sa/s",
    "delay: " ++ (Dec.toEngString (Dec.normalize h.delay)) ++ " s",
    "number of channels: " ++ toString h.num_channels,
    "channel map: " ++ showChannelList (h.channel_map.take h.num_channels) ]

/-- Source lines 74-75: the timestamped row producer.
`([i/header.sample_rate, *s.channel] for i, s in enumerate(samples))`. -/
def timestamped_data (h : Header) (samples : List Sample) : List (List ℚ) :=
  samples.enum.map (fun p => ((p.1 : ℚ) / h.sample_rate.toRat) :: p.2.channel)

/-- `f.startswith('_')` on source line 81: a header attribute is internal
iff its name begins with an underscore. -/
def is_internal (f : String) : Bool :=
  match f.data with
  | '_' :: _ => true
  | _ => false

/-- Source lines 80-81: the log header row
`[f'{f}={v}' for f, v in vars(header).items() if not f.startswith('_')]`.
The attribute dictionary `vars(header).items()` is modelled as an ordered
association list of (name, rendered value) pairs. -/
def log_header_row (fields : List (String × String)) : List String :=
  (fields.filter (fun p => ! is_internal p.1)).map (fun p => p.1 ++ "=" ++ p.2)

/-- Source lines 82-84: the column header row
`['Time'] + ['Channel ' + str(c) for c in header.channel_map[:header.num_channels]]`. -/
def column_header_row (h : Header) : List String :=
  "Time" :: (h.channel_map.take h.num_channels).map (fun c => "Channel " ++ toString c)

/-- Source lines 48-53, `write_csv`: the sequence of rows handed to the CSV
writer — the optional log header row, then the optional column header row,
then the data rows in order. -/
def write_csv (data : List α) (log_header : Option α) (column_header : Option α) :
    List α :=
  log_header.toList ++ column_header.toList ++ data

/-- A data row as serialized by the CSV writer (each field via `str`). -/
def renderRow (r : List ℚ) : List String :=
  r.map showRat

/-- Source lines 74-86 of `main`: the full row sequence emitted for the CSV
output, as a function of the two omission flags.  `fields` stands for
`vars(header).items()`. -/
def emitted_rows (h : Header) (samples : List Sample)
    (fields : List (String × String))
    (no_csv_log_header no_csv_column_header : Bool) : List (List String) :=
  write_csv ((timestamped_data h samples).map renderRow)
    (if no_csv_log_header then none else some (log_header_row fields))
    (if no_csv_column_header then none else some (column_header_row h))

example : Dec.toEngString (Dec.normalize ⟨1000, 0⟩) = "1E+3" := by decide
example : Dec.toEngString (Dec.normalize ⟨2, -3⟩) = "0.002" := by decide
example : Dec.toEngString (Dec.normalize ⟨0, 2⟩) = "0" := by decide
example : Dec.toEngString (Dec.normalize ⟨15, 2⟩) = "1.5E+3" := by decide

example : Dec.toEngString (Dec.normalize ⟨1, -7⟩) = "100E-9" := by decide
example : Dec.toEngString (Dec.normalize ⟨123450, 0⟩) = "123.45E+3" := by decide
example : Dec.toEngString (Dec.normalize ⟨12345, 0⟩) = "12345" := by decide
example : Dec.toEngString (Dec.normalize ⟨1, 7⟩) = "10E+6" := by decide
example : Dec.toEngString (Dec.normalize ⟨25, -8⟩) = "250E-9" := by decide
example : Dec.toEngString (Dec.normalize ⟨-2, -3⟩) = "-0.002" := by decide
example : Dec.toEngString (Dec.normalize ⟨0, -2⟩) = "0" := by decide
example : Dec.toEngString (Dec.normalize ⟨1, -1⟩) = "0.1" := by decide

/-- A concrete header matching the worked example in the documentation:
`sample_rate=1000`, `delay=0.002`, `num_channels=2`, `channel_map=[0,1]`. -/
def exampleHeader : Header :=
  { dlog_format := ⟨"DLOG_RAW"⟩
    stop_reason := ⟨"MANUAL"⟩
    num_samples := 1
    voltage_scale := 1000
    sample_rate := ⟨1000, 0⟩
    delay := ⟨2, -3⟩
    num_channels := 2
    channel_map := [0, 1] }

/-- A malformed header whose declared channel count exceeds the channel map
length. -/
def overHeader : Header :=
  { exampleHeader with num_channels := 3 }

/-- A concrete stand-in for `vars(header).items()`: two public attributes
and one internal one. -/
def exampleFields : List (String × String) :=
  [("dlog_format", "DlogFormat.DLOG_RAW"), ("num_samples", "1"), ("_io", "io")]

/-- `getD` through `map`, for an in-range index. -/
theorem getD_map_lt {α β : Type} (f : α → β) (l : List α) (i : ℕ) (d : α) (d' : β)
    (hi : i < l.length) : (l.map f).getD i d' = f (l.getD i d) := by
  have hi' : i < (l.map f).length := by simpa using hi
  rw [List.getD_eq_getElem _ _ hi', List.getD_eq_getElem _ _ hi, List.getElem_map]

/-- Claim C2: for `voltage_scale = 1000` the presented voltage unit is
exactly `"mV"`, for `voltage_scale = 1` it is exactly `"V"`, and for any
other positive scale the presented value is the numeric reciprocal
`1/voltage_scale`, not a unit string. -/
theorem voltage_unit_policy (h : Header) :
    (h.voltage_scale = 1000 → voltage_display h.voltage_scale = Sum.inl "mV" ∧
      (format_header_info h).getD 3 "" = "voltage units: mV") ∧
    (h.voltage_scale = 1 → voltage_display h.voltage_scale = Sum.inl "V" ∧
      (format_header_info h).getD 3 "" = "voltage units: V") ∧
    (0 < h.voltage_scale → h.voltage_scale ≠ 1000 → h.voltage_scale ≠ 1 →
      voltage_display h.voltage_scale = Sum.inr (1 / h.voltage_scale)) := by
  refine ⟨fun hv => ?_, fun hv => ?_, fun _ h1000 h1 => ?_⟩
  · simp [format_header_info, voltage_display, hv, showVoltage]
  · simp [format_header_info, voltage_display, hv, showVoltage]
  · simp [voltage_display, h1000, h1]

theorem voltage_unit_policy_witness :
    voltage_display (800 : ℚ) = Sum.inr (1 / 800) ∧
    voltage_display exampleHeader.voltage_scale = Sum.inl "mV" :=
  ⟨(voltage_unit_policy { exampleHeader with voltage_scale := 800 }).2.2
      (by norm_num) (by norm_num) (by norm_num),
    ((voltage_unit_policy exampleHeader).1 rfl).1⟩

/-- Claim C4: for a valid header (`num_channels ≤ len(channel_map)`) the
column header row has length `num_channels + 1`, starts with `"Time"`, and
its `(i+1)`-th element is `"Channel "` followed by the `i`-th active channel
id. -/
theorem column_header_shape (h : Header)
    (hvalid : h.num_channels ≤ h.channel_map.length) :
    (column_header_row h).length = h.num_channels + 1 ∧
    (column_header_row h).getD 0 "" = "Time" ∧
    ∀ i, i < h.num_channels →
      (column_header_row h).getD (i + 1) "" =
        "Channel " ++ toString ((h.channel_map.take h.num_channels).getD i 0) := by
  refine ⟨?_, rfl, fun i hi => ?_⟩
  · simp [column_header_row, List.length_take, Nat.min_eq_left hvalid]
  · have hlen : i < (h.channel_map.take h.num_channels).length := by
      simpa [List.length_take, Nat.min_eq_left hvalid] using hi
    simpa [column_header_row] using
      getD_map_lt (fun c => "Channel " ++ toString c) _ i 0 "" hlen

theorem column_header_shape_witness :
    (column_header_row exampleHeader).length = exampleHeader.num_channels + 1 ∧
    (column_header_row exampleHeader).getD 1 "" =
      "Channel " ++ toString ((exampleHeader.channel_map.take
        exampleHeader.num_channels).getD 0 0) :=
  ⟨(column_header_shape exampleHeader (by decide)).1,
    (column_header_shape exampleHeader (by decide)).2.2 0 (by decide)⟩

/-- Claim C6: the emitted rows appear in the order log header row (if
requested), column header row (if requested), then all data rows in input
order; disabling either flag removes exactly that one row and leaves the
remaining rows unchanged. -/
theorem emitted_rows_order (h : Header) (samples : List Sample)
    (fields : List (String × String)) :
    emitted_rows h samples fields false false =
      log_header_row fields :: column_header_row h ::
        (timestamped_data h samples).map renderRow ∧
    emitted_rows h samples fields true false =
      column_header_row h :: (timestamped_data h samples).map renderRow ∧
    emitted_rows h samples fields false true =
      log_header_row fields :: (timestamped_data h samples).map renderRow ∧
    emitted_rows h samples fields true true =
      (timestamped_data h samples).map renderRow := by
  exact ⟨rfl, rfl, rfl, rfl⟩

/-- Claim C9: the metadata presenter is deterministic and always yields the
eight descriptive strings (format name, stop reason, sample count, voltage
unit, sample rate, delay, channel count, channel map) in that order. -/
theorem presenter_idempotent_eight (h : Header) :
    format_header_info h = format_header_info h ∧
    (format_header_info h).length = 8 ∧
    (format_header_info h).getD 0 "" = "log format: " ++ h.dlog_format.name ∧
    (format_header_info h).getD 1 "" = "stop reason: " ++ h.stop_reason.name ∧
    (format_header_info h).getD 2 "" = "number of samples: " ++ toString h.num_samples ∧
    (format_header_info h).getD 3 "" =
      "voltage units: " ++ showVoltage (voltage_display h.voltage_scale) ∧
    (format_header_info h).getD 4 "" =
      "sample rate: " ++ Dec.toEngString (Dec.normalize h.sample_rate) ++ " Sa/s" ∧
    (format_header_info h).getD 5 "" =
      "delay: " ++ Dec.toEngString (Dec.normalize h.delay) ++ " s" ∧
    (format_header_info h).getD 6 "" = "number of channels: " ++ toString h.num_channels ∧
    (format_header_info h).getD 7 "" =
      "channel map: " ++ showChannelList (h.channel_map.take h.num_channels) := by
  exact ⟨rfl, rfl, rfl, rfl, rfl, rfl, rfl, rfl, rfl, rfl⟩

/-- Claim C1: with a positive sample rate, the row producer yields exactly
one row per sample, and row `i` is `i / sample_rate` followed by the channel
values of sample `i`, in order. -/
theorem row_producer_rows (h : Header) (samples : List Sample)
    (_hrate : 0 < h.sample_rate.toRat) :
    (timestamped_data h samples).length = samples.length ∧
    ∀ i, i < samples.length →
      (timestamped_data h samples).getD i [] =
        ((i : ℚ) / h.sample_rate.toRat) :: (samples.getD i ⟨[]⟩).channel := by
  constructor
  · simp [timestamped_data]
  · intro i hi
    have hlen : i < samples.enum.length := by simpa using hi
    rw [timestamped_data, getD_map_lt _ _ i (0, ⟨[]⟩) [] hlen,
      List.getD_eq_getElem _ _ hlen, List.getD_eq_getElem _ _ hi]
    simp

theorem row_producer_rows_witness :
    0 < exampleHeader.sample_rate.toRat ∧
    (timestamped_data exampleHeader [⟨[1/2, -1/2]⟩]).length = 1 ∧
    (timestamped_data exampleHeader [⟨[1/2, -1/2]⟩]).getD 0 [] =
      ((0 : ℚ) / exampleHeader.sample_rate.toRat) ::
        (([⟨[1/2, -1/2]⟩] : List Sample).getD 0 ⟨[]⟩).channel := by
  have hpos : 0 < exampleHeader.sample_rate.toRat := by
    norm_num [exampleHeader, Dec.toRat]
  exact ⟨hpos, (row_producer_rows exampleHeader [⟨[1/2, -1/2]⟩] hpos).1,
    (row_producer_rows exampleHeader [⟨[1/2, -1/2]⟩] hpos).2 0 (by decide)⟩

/-- Claim C10: the row producer copies each sample's channel values
verbatim — dropping the time column from row `i` recovers sample `i`'s
channel list, and the produced rows do not depend on `voltage_scale`. -/
theorem rows_channels_verbatim (h : Header) (samples : List Sample) :
    (∀ i, i < samples.length →
      ((timestamped_data h samples).getD i []).drop 1 =
        (samples.getD i ⟨[]⟩).channel) ∧
    ∀ vs : ℚ,
      timestamped_data { h with voltage_scale := vs } samples =
        timestamped_data h samples := by
  constructor
  · intro i hi
    have hlen : i < samples.enum.length := by simpa using hi
    rw [timestamped_data, getD_map_lt _ _ i (0, ⟨[]⟩) [] hlen,
      List.getD_eq_getElem _ _ hlen, List.getD_eq_getElem _ _ hi]
    simp
  · intro vs
    rfl

theorem rows_channels_verbatim_witness :
    ((timestamped_data exampleHeader [⟨[1/2, -1/2]⟩]).getD 0 []).drop 1 =
      (([⟨[1/2, -1/2]⟩] : List Sample).getD 0 ⟨[]⟩).channel :=
  (rows_channels_verbatim exampleHeader [⟨[1/2, -1/2]⟩]).1 0 (by decide)

/-- Claim C5 (counterexample): the row producer performs no channel-count
validation.  For the example header (`num_channels = 2`) and a malformed
sample with a single channel value, it emits the row `[0, 5]` of length 2,
which is shorter than `num_channels + 1 = 3`; no error condition arises. -/
theorem malformed_sample_row_emitted :
    timestamped_data exampleHeader [⟨[5]⟩] = [[0, 5]] ∧
    ((timestamped_data exampleHeader [⟨[5]⟩]).getD 0 []).length ≠
      exampleHeader.num_channels + 1 := by
  constructor
  · show [((0 : ℚ) / exampleHeader.sample_rate.toRat) :: [(5 : ℚ)]] = [[0, 5]]
    norm_num [exampleHeader, Dec.toRat]
  · intro hcontra
    have h1 : timestamped_data exampleHeader [⟨[5]⟩] = [[0, 5]] := by
      show [((0 : ℚ) / exampleHeader.sample_rate.toRat) :: [(5 : ℚ)]] = [[0, 5]]
      norm_num [exampleHeader, Dec.toRat]
    rw [h1] at hcontra
    simp [exampleHeader] at hcontra

/-- Claim C5 (amended): a sample whose channel-value count differs from
`num_channels` does not raise an error; the producer emits its row anyway,
with length `len(channel) + 1` rather than `num_channels + 1`. -/
theorem malformed_sample_no_error (h : Header) (samples : List Sample) (i : ℕ)
    (hi : i < samples.length) :
    (timestamped_data h samples).length = samples.length ∧
    ((timestamped_data h samples).getD i []).length =
      (samples.getD i ⟨[]⟩).channel.length + 1 := by
  constructor
  · simp [timestamped_data]
  · have hlen : i < samples.enum.length := by simpa using hi
    rw [timestamped_data, getD_map_lt _ _ i (0, ⟨[]⟩) [] hlen,
      List.getD_eq_getElem _ _ hlen, List.getD_eq_getElem _ _ hi]
    simp

theorem malformed_sample_no_error_witness :
    (timestamped_data exampleHeader [⟨[5]⟩]).length = 1 ∧
    ((timestamped_data exampleHeader [⟨[5]⟩]).getD 0 []).length =
      (([⟨[5]⟩] : List Sample).getD 0 ⟨[]⟩).channel.length + 1 :=
  malformed_sample_no_error exampleHeader [⟨[5]⟩] 0 (by decide)

/-- Claim C8: when `num_channels` exceeds the channel map length, the slice
`channel_map[:num_channels]` silently truncates to the whole map: the
presenter's channel-map item and the column header row are built from all of
`channel_map`, no error is raised, and the column header row has length
`len(channel_map) + 1`. -/
theorem overlong_channel_count_truncates (h : Header)
    (hover : h.channel_map.length < h.num_channels) :
    column_header_row h =
      "Time" :: h.channel_map.map (fun c => "Channel " ++ toString c) ∧
    (column_header_row h).length = h.channel_map.length + 1 ∧
    (format_header_info h).getD 7 "" =
      "channel map: " ++ showChannelList h.channel_map := by
  have htake : h.channel_map.take h.num_channels = h.channel_map :=
    List.take_of_length_le (le_of_lt hover)
  refine ⟨by simp [column_header_row, htake], ?_, by simp [format_header_info, htake]⟩
  simp [column_header_row, htake]

theorem overlong_channel_count_truncates_witness :
    overHeader.channel_map.length < overHeader.num_channels ∧
    (column_header_row overHeader).length = overHeader.channel_map.length + 1 :=
  ⟨by decide, (overlong_channel_count_truncates overHeader (by decide)).2.1⟩

/-- Claim C3 (counterexample): for the example header with
`sample_rate = 1000` and `delay = 0.002`, the presenter emits
`"sample rate: 1E+3 Sa/s"` and `"delay: 0.002 s"` — `to_eng_string` uses an
`E`-exponent (a multiple of 3), never SI letter prefixes — so the claimed
strings `"sample rate: 1k Sa/s"` and `"delay: 2m s"` are not produced. -/
theorem eng_notation_counterexample :
    (format_header_info exampleHeader).getD 4 "" = "sample rate: 1E+3 Sa/s" ∧
    (format_header_info exampleHeader).getD 5 "" = "delay: 0.002 s" ∧
    (format_header_info exampleHeader).getD 4 "" ≠ "sample rate: 1k Sa/s" ∧
    (format_header_info exampleHeader).getD 5 "" ≠ "delay: 2m s" := by
  refine ⟨by decide, by decide, by decide, by decide⟩

/-- Claim C3 (amended): the presenter renders `sample_rate` and `delay` as
arbitrary-precision decimals, normalized to drop trailing insignificant
digits, through `to_eng_string` — whose engineering notation writes an
explicit `E` exponent that is a multiple of 3 (or a plain positional form
for small exponents), not SI letter prefixes.  For `sample_rate = 1000` and
`delay = 0.002` it emits `"sample rate: 1E+3 Sa/s"` and `"delay: 0.002 s"`. -/
theorem eng_notation_rendering (h : Header) :
    (format_header_info h).getD 4 "" =
      "sample rate: " ++ Dec.toEngString (Dec.normalize h.sample_rate) ++ " Sa/s" ∧
    (format_header_info h).getD 5 "" =
      "delay: " ++ Dec.toEngString (Dec.normalize h.delay) ++ " s" ∧
    (format_header_info exampleHeader).getD 4 "" = "sample rate: 1E+3 Sa/s" ∧
    (format_header_info exampleHeader).getD 5 "" = "delay: 0.002 s" := by
  refine ⟨rfl, rfl, by decide, by decide⟩

/-- Splitting a character list around a separator absent from both prefixes
determines the prefixes and suffixes uniquely. -/
theorem split_at_sep (xs : List Char) : ∀ ys u v : List Char,
    ('=' : Char) ∉ xs → ('=' : Char) ∉ ys →
    xs ++ '=' :: u = ys ++ '=' :: v → xs = ys ∧ u = v := by
  induction xs with
  | nil =>
    intro ys u v _ hy h
    cases ys with
    | nil => simpa using h
    | cons b bs =>
      rw [List.nil_append, List.cons_append] at h
      simp only [List.mem_cons, not_or] at hy
      exact absurd (List.cons.inj h).1 hy.1
  | cons a as ih =>
    intro ys u v hx hy h
    cases ys with
    | nil =>
      rw [List.cons_append, List.nil_append] at h
      simp only [List.mem_cons, not_or] at hx
      exact absurd (List.cons.inj h).1.symm hx.1
    | cons b bs =>
      rw [List.cons_append, List.cons_append] at h
      obtain ⟨hab, hrest⟩ := List.cons.inj h
      simp only [List.mem_cons, not_or] at hx hy
      obtain ⟨h1, h2⟩ := ih bs u v hx.2 hy.2 hrest
      exact ⟨by rw [hab, h1], h2⟩

/-- The rendered `"key=value"` string determines key and value, provided
neither key contains `'='` (Python attribute names never do). -/
theorem kv_render_inj (a b c d : String)
    (ha : ('=' : Char) ∉ a.data) (hc : ('=' : Char) ∉ c.data)
    (h : a ++ "=" ++ b = c ++ "=" ++ d) : a = c ∧ b = d := by
  have hdata : a.data ++ '=' :: b.data = c.data ++ '=' :: d.data := by
    have h2 := congrArg String.data h
    simpa [String.data_append] using h2
  obtain ⟨h1, h2⟩ := split_at_sep a.data c.data b.data d.data ha hc hdata
  exact ⟨String.ext_iff.mpr h1, String.ext_iff.mpr h2⟩

/-- A pair whose key does not occur among the field names contributes no
occurrence of its rendered `"key=value"` string to the log header row. -/
theorem count_render_zero (rs : List (String × String)) (p : String × String)
    (hnot : p.1 ∉ rs.map Prod.fst)
    (hkeys : ∀ r ∈ rs, ('=' : Char) ∉ r.1.data)
    (hkp : ('=' : Char) ∉ p.1.data) :
    (log_header_row rs).count (p.1 ++ "=" ++ p.2) = 0 := by
  rw [List.count_eq_zero]
  intro hmem
  obtain ⟨r, hrmem, hreq⟩ := List.mem_map.mp hmem
  have hr : r ∈ rs := List.mem_of_mem_filter hrmem
  obtain ⟨h1, -⟩ := kv_render_inj r.1 r.2 p.1 p.2 (hkeys r hr) hkp hreq
  exact hnot (h1 ▸ List.mem_map_of_mem Prod.fst hr)

/-- Each public field of a duplicate-free attribute dictionary contributes
exactly one `"key=value"` string to the log header row. -/
theorem count_render_one (fields : List (String × String))
    (hnodup : (fields.map Prod.fst).Nodup)
    (hkeys : ∀ r ∈ fields, ('=' : Char) ∉ r.1.data)
    (p : String × String) (hp : p ∈ fields) (hpub : is_internal p.1 = false) :
    (log_header_row fields).count (p.1 ++ "=" ++ p.2) = 1 := by
  induction fields with
  | nil => exact absurd hp (List.not_mem_nil p)
  | cons r rs ih =>
    simp only [List.map_cons, List.nodup_cons] at hnodup
    have hkrs : ∀ x ∈ rs, ('=' : Char) ∉ x.1.data :=
      fun x hx => hkeys x (List.mem_cons_of_mem r hx)
    have hkp : ('=' : Char) ∉ p.1.data := hkeys p hp
    rcases List.mem_cons.mp hp with hpr | hprs
    · subst hpr
      rw [log_header_row, List.filter_cons]
      simp only [hpub, Bool.not_false, if_pos]
      rw [List.map_cons]
      rw [List.count_cons_self]
      rw [show ((List.filter (fun q => ! is_internal q.1) rs).map
            (fun q => q.1 ++ "=" ++ q.2)) = log_header_row rs from rfl,
        count_render_zero rs p hnodup.1 hkrs hkp]
    · have hcount := ih hnodup.2 hkrs hprs
      rw [log_header_row, List.filter_cons]
      by_cases hqr : is_internal r.1 = true
      · rw [if_neg (by simp [hqr])]
        exact hcount
      · have hqr' : (! is_internal r.1) = true := by
          cases hv : is_internal r.1
          · rfl
          · exact absurd hv hqr
        rw [if_pos hqr', List.map_cons]
        have hne : p.1 ++ "=" ++ p.2 ≠ r.1 ++ "=" ++ r.2 := by
          intro heq
          obtain ⟨h1, -⟩ :=
            kv_render_inj p.1 p.2 r.1 r.2 hkp (hkeys r (List.mem_cons_self r rs)) heq
          exact hnodup.1 (h1 ▸ List.mem_map_of_mem Prod.fst hprs)
        rw [List.count_cons_of_ne hne]
        exact hcount

/-- Claim C7: the log header row contains, for every public header field
(name not starting with an underscore), exactly one `"field=value"` string,
has no other entries, and is stable across repeated builds from the same
header.  The hypotheses state the invariants of Python's `vars()` dict:
attribute names are pairwise distinct and never contain `'='`. -/
theorem log_header_fields_once (fields : List (String × String))
    (hnodup : (fields.map Prod.fst).Nodup)
    (hkeys : ∀ r ∈ fields, ('=' : Char) ∉ r.1.data) :
    (log_header_row fields).length =
      (fields.filter (fun p => ! is_internal p.1)).length ∧
    (∀ p ∈ fields, is_internal p.1 = false →
      (log_header_row fields).count (p.1 ++ "=" ++ p.2) = 1) ∧
    log_header_row fields = log_header_row fields :=
  ⟨by simp [log_header_row],
    fun p hp hpub => count_render_one fields hnodup hkeys p hp hpub, rfl⟩

theorem log_header_fields_once_witness :
    (log_header_row exampleFields).count "num_samples=1" = 1 := by
  have h := (log_header_fields_once exampleFields (by decide) (by decide)).2.1
    ("num_samples", "1") (by decide) (by decide)
  simpa using h
